import Mathlib

/-!
# Verification of `modin.core.io.sql.sql_dispatcher.SQLDispatcher._read`

A shallow embedding of the partitioned SQL ingestion dispatcher
(`src/modin/core/io/sql/sql_dispatcher.py`).  External collaborators
(the SQL execution engine behind `pandas.read_sql`, the task execution
substrate behind `cls.deploy`/`cls.materialize`, and the partition
wrapper `cls.frame_partition_cls`) are modelled as oracles carried in an
environment record; the dispatcher's own control flow, query-string
construction, partition planning, handle bookkeeping, index
reconciliation and result assembly are translated line by line.

`H` is the type of opaque handles returned by the execution substrate,
`I` the type of index values carried by an explicit index column.
-/

/-- The per-connection introspectable fields of a `psycopg2` connection
(`con.info.user`, `con.info.password`, `con.info.host`, `con.info.port`,
`con.info.dbname`), used at lines 62-71 of the source. -/
structure PgInfo where
  user : String
  password : String
  host : String
  port : Nat
  dbname : String
deriving DecidableEq

/-- A connection argument: a connection string, a `psycopg2` connection
object (carrying its introspectable fields), or any other non-string
object (carrying the text of its Python type, used in the warning). -/
inductive Conn where
  | str : String → Conn
  | pg : PgInfo → Conn
  | other : String → Conn
deriving DecidableEq

/-- Line 63-71: the connection string derived from a `psycopg2`
connection object, `"postgresql+psycopg2://{}:{}@{}{}/{}"` formatted
with user, password, host (empty when host is the Unix-socket sentinel
`"/tmp"`), `":" + port` (empty when host is `"/tmp"`), and dbname. -/
def pgConnString (info : PgInfo) : String :=
  "postgresql+psycopg2://" ++ info.user ++ ":" ++ info.password ++ "@" ++
    (if info.host ≠ "/tmp" then info.host else "") ++
    (if info.host ≠ "/tmp" then ":" ++ toString info.port else "") ++
    "/" ++ info.dbname

/-- Lines 59-73: the `try: import psycopg2 ... except ImportError: pass`
block.  When `psycopg2` is importable and `con` is a recognized
connection object, `con` is replaced by the derived connection string;
every other argument is left unchanged. -/
def normalizeCon (pgAvailable : Bool) (con : Conn) : Conn :=
  match con with
  | .pg info => if pgAvailable then .str (pgConnString info) else con
  | c => c

/-- The Python type text of a (normalized) connection, as interpolated
into the warning message by `type(con)`. -/
def connTypeName : Conn → String
  | .str _ => "str"
  | .pg _ => "psycopg2.extensions.connection"
  | .other tn => tn

/-- Lines 78-81: the warning message (note the two adjacent Python
string literals concatenate with no space: `"...sqlalchemyconnection..."`). -/
def warnMsg (tn : String) : String :=
  "To use parallel implementation of `read_sql`, pass the sqlalchemy" ++
    "connection string instead of " ++ tn ++ "."

/-- Line 83: `"SELECT COUNT(*) FROM ({}) as foo".format(sql)`. -/
def rowCntQuery (sql : String) : String :=
  "SELECT COUNT(*) FROM (" ++ sql ++ ") as foo"

/-- Line 86: `"SELECT * FROM ({}) as foo LIMIT 0".format(sql)`. -/
def schemaQuery (sql : String) : String :=
  "SELECT * FROM (" ++ sql ++ ") as foo LIMIT 0"

/-- Lines 96-98: `"SELECT * FROM ({}) as foo LIMIT {} OFFSET {}"`. -/
def partQuery (sql : String) (limit offset : Nat) : String :=
  "SELECT * FROM (" ++ sql ++ ") as foo LIMIT " ++ toString limit ++
    " OFFSET " ++ toString offset

/-- Line 93: `limit = math.ceil(row_cnt / num_partitions)`, the exact
ceiling of the division, as a natural number. -/
def planLimit (row_cnt num_partitions : Nat) : Nat :=
  (row_cnt + num_partitions - 1) / num_partitions

/-- Lines 93-98: the sequence of `(offset, limit)` ranges produced by
the loop, `offset = part * limit` for `part` in `0..num_partitions-1`. -/
def planRanges (row_cnt num_partitions : Nat) : List (Nat × Nat) :=
  (List.range num_partitions).map fun part =>
    (part * planLimit row_cnt num_partitions, planLimit row_cnt num_partitions)

/-- A Python value reachable by the dispatcher's bookkeeping lists:
either an opaque handle from the execution substrate, or a Python list
whose elements are the `cls.frame_partition_cls`-wrapped versions of the
given handles (the wrapper itself is an opaque injective constructor, so
the wrapped list is determined by the handles it wraps). -/
inductive PyObj (H : Type) where
  | handle : H → PyObj H
  | partList : List H → PyObj H
deriving DecidableEq

instance (H : Type) : Inhabited (PyObj H) := ⟨.partList []⟩

/-- Line 111: `[cls.frame_partition_cls(obj) for obj in partition_id[:-2]]`
— the Python list wrapping all but the last two handles of a task's
handle set. -/
def wrapOf {H : Type} (partition_id : List H) : PyObj H :=
  .partList (partition_id.take (partition_id.length - 2))

/-- Python negative indexing `partition_id[-2]` (defined whenever the
list has at least two elements, which the callers guard). -/
def penult {H : Type} [Inhabited H] (partition_id : List H) : H :=
  partition_id.getD (partition_id.length - 2) default

/-- Python negative indexing `xs[-1]` on a nonempty list. -/
def pyLast {H : Type} [Inhabited (PyObj H)] (xs : List (PyObj H)) : PyObj H :=
  xs.getLastD default

/-- Lines 90-92: the three bookkeeping lists `partition_ids`,
`index_ids`, `dtype_ids` grown by the dispatch loop. -/
structure Tracked (H : Type) where
  partition_ids : List (PyObj H)
  index_ids : List H
  dtype_ids : List (PyObj H)
deriving DecidableEq

/-- Lines 110-114: the body of one loop iteration after `cls.deploy`
returned the handle set `partition_id`.  `partition_ids` gains the
wrapped data blocks `partition_id[:-2]`, `index_ids` gains
`partition_id[-2]`, and `dtype_ids` gains `partition_ids[-1]` — note the
source appends `partition_ids[-1]` (the list of wrapped data blocks just
appended), not `partition_id[-1]` (the task's dtype handle).  `none`
models the `IndexError` Python raises for `partition_id[-2]` when the
handle set has fewer than two elements. -/
def trackOne {H : Type} [Inhabited H] (st : Tracked H) (partition_id : List H) :
    Option (Tracked H) :=
  if 2 ≤ partition_id.length then
    let parts := st.partition_ids ++ [wrapOf partition_id]
    some ⟨parts, st.index_ids ++ [penult partition_id], st.dtype_ids ++ [pyLast parts]⟩
  else none

/-- The environment of external collaborators: whether `psycopg2` is
importable, the SQL execution capability (split by which probe query is
being run), the configured parallelism degree `NPartitions.get()`, the
handle set returned by partition `k`'s deployed task, and the
materialization of an index handle — its partition length when no index
column was requested, its index fragment otherwise. -/
structure Env (H I : Type) where
  pgAvailable : Bool
  execCount : String → String → Except String Nat
  execSchema : String → String → Except String (List String)
  nPartitions : Nat
  deploy : Nat → List H
  lenOf : H → Nat
  fragOf : H → List I
deriving Inhabited

/-- An observable action of the dispatcher: the warning of line 78, the
`single_worker_read` fallback of line 82, a probe query issued through
`pandas.read_sql`, a `cls.deploy` call (expected result count,
`num_splits`, sub-query string), or a `cls.materialize` call. -/
inductive Effect (H : Type) where
  | warned : String → Effect H
  | singleWorker : Effect H
  | sqlProbe : String → Effect H
  | deployed : Nat → Nat → String → Effect H
  | materialized : List H → Effect H
deriving DecidableEq

/-- Lines 115-122: the GlobalIndex — `pandas.RangeIndex(n)` when no
index column was requested, or `pandas.Index(values).set_names(names)`
otherwise. -/
inductive GlobalIndex (I : Type) where
  | range : Nat → GlobalIndex I
  | labeled : List I → List String → GlobalIndex I
deriving DecidableEq

/-- The values `0, 1, ..., n-1` of `pandas.RangeIndex(n)`. -/
def rangeIndexVals (n : Nat) : List Nat := List.range n

/-- The value `_read` returns (or the exception it raises): the
`single_worker_read` result of line 82 (with the arguments passed to
it), a propagated error, or the query compiler built at lines 123-125
from the partition grid, the reconciled index and the probed columns. -/
inductive ReadResult (H I : Type) where
  | fallback : String → Conn → Option (List String) → ReadResult H I
  | err : String → ReadResult H I
  | frame : List (PyObj H) → GlobalIndex I → List String → ReadResult H I
deriving DecidableEq

/-- Lines 94-114: the dispatch loop over `part in range(num_partitions)`,
threading the bookkeeping state and recording one `deployed` effect per
iteration with expected result count `num_partitions + 2` and
`num_splits = num_partitions`. -/
def runParts {H I : Type} [Inhabited H] (env : Env H I) (sql : String) (limit : Nat) :
    List Nat → Tracked H → Option (Tracked H) × List (Effect H)
  | [], st => (some st, [])
  | part :: rest, st =>
    let eff : Effect H :=
      .deployed (env.nPartitions + 2) env.nPartitions (partQuery sql limit (part * limit))
    match trackOne st (env.deploy part) with
    | none => (none, [eff])
    | some st2 =>
      let r := runParts env sql limit rest st2
      (r.1, eff :: r.2)

/-- Lines 115-122: the Index Reconciler.  With no index column,
`pandas.RangeIndex(sum(index_lens))` over the materialized partition
lengths; with an index column, the flattening
`[x for part_index in cls.materialize(index_ids) for x in part_index]`
labeled by `set_names(index_col)`. -/
def reconcileIndex {H I : Type} (index_col : Option (List String))
    (lenOf : H → Nat) (fragOf : H → List I) (index_ids : List H) : GlobalIndex I :=
  match index_col with
  | none => .range ((index_ids.map lenOf).sum)
  | some cols => .labeled ((index_ids.map fragOf).flatten) cols

/-- Lines 83-125: the parallel path of `_read`, entered once `con` is a
connection string.  Runs the two probes (propagating their errors),
plans `limit`, runs the dispatch loop, materializes the index handles,
reconciles the index and assembles the frame.  Returns the result
together with the list of observable effects in program order. -/
def readCore {H I : Type} [Inhabited H] (env : Env H I) (sql con : String)
    (index_col : Option (List String)) : ReadResult H I × List (Effect H) :=
  match env.execCount (rowCntQuery sql) con with
  | .error e => (.err e, [.sqlProbe (rowCntQuery sql)])
  | .ok row_cnt =>
    match env.execSchema (schemaQuery sql) con with
    | .error e => (.err e, [.sqlProbe (rowCntQuery sql), .sqlProbe (schemaQuery sql)])
    | .ok cols_names =>
      let limit := planLimit row_cnt env.nPartitions
      let r := runParts env sql limit (List.range env.nPartitions) ⟨[], [], []⟩
      match r.1 with
      | none =>
        (.err "IndexError", .sqlProbe (rowCntQuery sql) :: .sqlProbe (schemaQuery sql) :: r.2)
      | some st =>
        (.frame st.partition_ids
            (reconcileIndex index_col env.lenOf env.fragOf st.index_ids) cols_names,
          .sqlProbe (rowCntQuery sql) :: .sqlProbe (schemaQuery sql) ::
            (r.2 ++ [.materialized st.index_ids]))

/-- Lines 59-125: `SQLDispatcher._read`.  Normalize the connection
(lines 59-73); if it is not a string, warn and return
`single_worker_read` (lines 77-82); otherwise run the parallel path. -/
def sqlRead {H I : Type} [Inhabited H] (env : Env H I) (sql : String) (con : Conn)
    (index_col : Option (List String)) : ReadResult H I × List (Effect H) :=
  match normalizeCon env.pgAvailable con with
  | .str s => readCore env sql s index_col
  | c =>
    (.fallback sql c index_col,
      [.warned (warnMsg (connTypeName c)), .singleWorker])

/-- Concrete environment with three partitions whose index fragments are
`[1,2,3]`, `[4,5]`, `[6,7,8]` (Scenario C of the spec): handles are
naturals, partition `k`'s handle set is `[0,0,0, 20+k, 0]`, and handle
`20+k` materializes to the `k`-th fragment. -/
def envC2 : Env Nat Int :=
  ⟨true, fun _ _ => .ok 8, fun _ _ => .ok ["id", "v"], 3,
    fun k => [0, 0, 0, 20 + k, 0], fun _ => 0,
    fun h => if h = 20 then [1, 2, 3] else if h = 21 then [4, 5] else
      if h = 22 then [6, 7, 8] else []⟩

/-- Concrete environment with two partitions of lengths 3 and 2:
partition `k`'s handle set is `[0, 9, 7+k, 0]` and handle `7+k`
materializes to lengths 3 and 2 respectively. -/
def envC3 : Env Nat Int :=
  ⟨true, fun _ _ => .ok 5, fun _ _ => .ok ["a"], 2,
    fun k => [0, 9, 7 + k, 0],
    fun h => if h = 7 then 3 else if h = 8 then 2 else 0, fun _ => []⟩

/-- Concrete environment with one partition whose task returns the
handle set `[40, 41, 42]`: data handle 40, index handle 41, dtype
handle 42. -/
def envC4 : Env Nat Int :=
  ⟨true, fun _ _ => .ok 1, fun _ _ => .ok ["a"], 1,
    fun _ => [40, 41, 42], fun _ => 0, fun _ => []⟩

/-- Concrete environment whose row-count probe fails with `"boom"`. -/
def envC7 : Env Nat Int :=
  ⟨true, fun _ _ => .error "boom", fun _ _ => .ok [], 1,
    fun _ => [], fun _ => 0, fun _ => []⟩

/-- Concrete environment with one partition, row count 5. -/
def envC9 : Env Nat Int :=
  ⟨true, fun _ _ => .ok 5, fun _ _ => .ok [], 1,
    fun _ => [0, 0, 0], fun _ => 0, fun _ => []⟩

/-- Concrete environment with one partition whose task returns the
handle set `[1, 2, 3]`. -/
def envC10 : Env Nat Int :=
  ⟨true, fun _ _ => .ok 4, fun _ _ => .ok ["a"], 1,
    fun _ => [1, 2, 3], fun _ => 1, fun _ => []⟩

/-- A deploy oracle agreeing with `envC10.deploy` except on the last
element (the dtype handle) of each handle set. -/
def dC10 : Nat → List Nat := fun _ => [1, 2, 99]

/-- A `psycopg2` connection whose host is the Unix-socket sentinel. -/
def infoA : PgInfo := ⟨"u", "p", "/tmp", 5432, "db"⟩

/-- A `psycopg2` connection with an ordinary TCP host. -/
def infoB : PgInfo := ⟨"u", "p", "localhost", 5432, "db"⟩

/-- Replace an environment's deploy oracle, leaving every other
collaborator unchanged. -/
def withDeploy {H I : Type} (env : Env H I) (d : Nat → List H) : Env H I :=
  ⟨env.pgAvailable, env.execCount, env.execSchema, env.nPartitions, d,
    env.lenOf, env.fragOf⟩

/-- One loop iteration, spelled out: the wrapped data blocks, the
second-to-last handle, and — because the source appends
`partition_ids[-1]`, the list just appended — the wrapped data blocks
again as the "dtype" entry. -/
theorem trackOne_eq {H : Type} [Inhabited H] (st : Tracked H) (l : List H)
    (h : 2 ≤ l.length) :
    trackOne st l =
      some ⟨st.partition_ids ++ [wrapOf l], st.index_ids ++ [penult l],
            st.dtype_ids ++ [wrapOf l]⟩ := by
  simp only [trackOne, if_pos h, pyLast, List.getLastD_concat]

/-- The dispatch loop over any list of partition numbers whose handle
sets all have at least two elements: it succeeds, extends the three
bookkeeping lists in plan order, and records one `deployed` effect per
partition. -/
theorem runParts_spec {H I : Type} [Inhabited H] (env : Env H I) (sql : String)
    (limit : Nat) (ks : List Nat) (st : Tracked H)
    (h : ∀ k ∈ ks, 2 ≤ (env.deploy k).length) :
    runParts env sql limit ks st =
      (some ⟨st.partition_ids ++ ks.map fun k => wrapOf (env.deploy k),
             st.index_ids ++ ks.map fun k => penult (env.deploy k),
             st.dtype_ids ++ ks.map fun k => wrapOf (env.deploy k)⟩,
       ks.map fun k =>
         Effect.deployed (env.nPartitions + 2) env.nPartitions
           (partQuery sql limit (k * limit))) := by
  induction ks generalizing st with
  | nil => simp [runParts]
  | cons k rest ih =>
    have hk := h k (List.mem_cons_self k rest)
    have hrest : ∀ j ∈ rest, 2 ≤ (env.deploy j).length := fun j hj =>
      h j (List.mem_cons_of_mem _ hj)
    simp only [runParts, trackOne_eq _ _ hk]
    rw [ih _ hrest]
    simp [List.append_assoc]

/-- The parallel path under successful probes and well-formed handle
sets: the assembled frame and the full effect trace, in program order. -/
theorem readCore_ok {H I : Type} [Inhabited H] (env : Env H I) (sql con : String)
    (ic : Option (List String)) (rc : Nat) (cp : List String)
    (hc : env.execCount (rowCntQuery sql) con = Except.ok rc)
    (hs : env.execSchema (schemaQuery sql) con = Except.ok cp)
    (hlen : ∀ k, k < env.nPartitions → 2 ≤ (env.deploy k).length) :
    readCore env sql con ic =
      (ReadResult.frame
          ((List.range env.nPartitions).map fun k => wrapOf (env.deploy k))
          (reconcileIndex ic env.lenOf env.fragOf
            ((List.range env.nPartitions).map fun k => penult (env.deploy k)))
          cp,
        Effect.sqlProbe (rowCntQuery sql) :: Effect.sqlProbe (schemaQuery sql) ::
          (((List.range env.nPartitions).map fun k =>
              Effect.deployed (env.nPartitions + 2) env.nPartitions
                (partQuery sql (planLimit rc env.nPartitions)
                  (k * planLimit rc env.nPartitions))) ++
            [Effect.materialized
              ((List.range env.nPartitions).map fun k => penult (env.deploy k))])) := by
  have h : ∀ k ∈ List.range env.nPartitions, 2 ≤ (env.deploy k).length := fun k hk =>
    hlen k (List.mem_range.mp hk)
  simp only [readCore, hc, hs,
    runParts_spec env sql (planLimit rc env.nPartitions) (List.range env.nPartitions)
      ⟨[], [], []⟩ h]
  simp

/-- Every effect recorded by the dispatch loop is a `deployed` effect
with expected result count `nPartitions + 2` and
`num_splits = nPartitions`. -/
theorem runParts_deployed {H I : Type} [Inhabited H] (env : Env H I) (sql : String)
    (limit : Nat) (ks : List Nat) (st : Tracked H) (e : Effect H)
    (he : e ∈ (runParts env sql limit ks st).2) :
    ∃ q, e = Effect.deployed (env.nPartitions + 2) env.nPartitions q := by
  induction ks generalizing st with
  | nil => simp [runParts] at he
  | cons k rest ih =>
    simp only [runParts] at he
    cases htr : trackOne st (env.deploy k) with
    | none => rw [htr] at he; simp at he; exact ⟨_, he⟩
    | some st2 =>
      rw [htr] at he
      simp only [List.mem_cons] at he
      rcases he with he | he
      · exact ⟨_, he⟩
      · exact ih st2 he

/-- One loop iteration is unchanged when the handle set is replaced by
one of the same length agreeing on all but its last element: the loop
touches only `partition_id[:-2]`, `partition_id[-2]` and the length. -/
theorem trackOne_congr {H : Type} [Inhabited H] (st : Tracked H) (l l' : List H)
    (hlen : l'.length = l.length)
    (htake : l'.take (l.length - 1) = l.take (l.length - 1)) :
    trackOne st l' = trackOne st l := by
  by_cases h2 : 2 ≤ l.length
  · have h2' : 2 ≤ l'.length := hlen ▸ h2
    have htk : l'.take (l.length - 2) = l.take (l.length - 2) := by
      have hmin : l.length - 2 = min (l.length - 2) (l.length - 1) := by omega
      calc l'.take (l.length - 2) = (l'.take (l.length - 1)).take (l.length - 2) := by
            rw [List.take_take, ← hmin]
        _ = (l.take (l.length - 1)).take (l.length - 2) := by rw [htake]
        _ = l.take (l.length - 2) := by rw [List.take_take, ← hmin]
    have hget : l'[l.length - 2]? = l[l.length - 2]? := by
      have hlt : l.length - 2 < l.length - 1 := by omega
      rw [← List.getElem?_take_of_lt (l := l') hlt, ← List.getElem?_take_of_lt (l := l) hlt,
        htake]
    have hw : wrapOf l' = wrapOf l := by rw [wrapOf, wrapOf, hlen, htk]
    have hp : penult l' = penult l := by
      rw [penult, penult, hlen, List.getD_eq_getD_get?, List.getD_eq_getD_get?,
        List.get?_eq_getElem?, List.get?_eq_getElem?, hget]
    simp only [trackOne, if_pos h2, if_pos h2', hw, hp]
  · have h2' : ¬ 2 ≤ l'.length := by omega
    simp only [trackOne, if_neg h2, if_neg h2']

/-- `withDeploy` keeps the parallelism degree. -/
theorem withDeploy_nPartitions {H I : Type} (env : Env H I) (d : Nat → List H) :
    (withDeploy env d).nPartitions = env.nPartitions := rfl

/-- `withDeploy` installs the given deploy oracle. -/
theorem withDeploy_deploy {H I : Type} (env : Env H I) (d : Nat → List H) :
    (withDeploy env d).deploy = d := rfl

/-- The dispatch loop is unchanged when every handle set is replaced by
one of the same length agreeing on all but its last element. -/
theorem runParts_congr {H I : Type} [Inhabited H] (env : Env H I) (d : Nat → List H)
    (sql : String) (limit : Nat) (ks : List Nat) (st : Tracked H)
    (hd : ∀ k, (d k).length = (env.deploy k).length ∧
      (d k).take ((env.deploy k).length - 1) =
        (env.deploy k).take ((env.deploy k).length - 1)) :
    runParts (withDeploy env d) sql limit ks st = runParts env sql limit ks st := by
  induction ks generalizing st with
  | nil => rfl
  | cons k rest ih =>
    have htr : trackOne st ((withDeploy env d).deploy k) = trackOne st (env.deploy k) :=
      trackOne_congr st (env.deploy k) (d k) (hd k).1 (hd k).2
    simp only [runParts, htr, withDeploy_nPartitions, ih]

/-- The whole parallel path is unchanged when every handle set is
replaced by one of the same length agreeing on all but its last
element — the last handle (the dtype handle) is never consumed. -/
theorem readCore_congr {H I : Type} [Inhabited H] (env : Env H I) (d : Nat → List H)
    (sql con : String) (ic : Option (List String))
    (hd : ∀ k, (d k).length = (env.deploy k).length ∧
      (d k).take ((env.deploy k).length - 1) =
        (env.deploy k).take ((env.deploy k).length - 1)) :
    readCore (withDeploy env d) sql con ic = readCore env sql con ic := by
  have hrp : ∀ limit st, runParts (withDeploy env d) sql limit (List.range env.nPartitions) st
      = runParts env sql limit (List.range env.nPartitions) st := fun limit st =>
    runParts_congr env d sql limit _ st hd
  simp only [readCore, withDeploy] at hrp ⊢
  simp only [hrp]

/-- C1 (amended): for every `P ≥ 1` and `rowCount ≥ 0` the planner
produces exactly `P` ranges; range `k` is `(k * limit, limit)` where
`limit` is the least number of rows per partition covering `rowCount`
(`ceil(rowCount / P)`); the limits sum to `P * limit ≥ rowCount`; each
offset exceeds the previous by exactly `limit`; and whenever
`rowCount ≥ 1` the offsets are strictly increasing (for `rowCount = 0`
the limit is `0` and all offsets are `0`). -/
theorem C1_planner (rc P : Nat) (hP : 1 ≤ P) :
    (planRanges rc P).length = P ∧
    (∀ k, k < P → (planRanges rc P)[k]? = some (k * planLimit rc P, planLimit rc P)) ∧
    rc ≤ P * planLimit rc P ∧
    (∀ m, rc ≤ P * m → planLimit rc P ≤ m) ∧
    ((planRanges rc P).map Prod.snd).sum = P * planLimit rc P ∧
    (∀ k, k + 1 < P →
      ((planRanges rc P).map Prod.fst)[k + 1]? =
        (((planRanges rc P).map Prod.fst)[k]?).map fun o => o + planLimit rc P) ∧
    (1 ≤ rc → List.Pairwise (fun a b => a < b) ((planRanges rc P).map Prod.fst)) := by
  have hP0 : 0 < P := hP
  refine ⟨by simp [planRanges], ?_, ?_, ?_, ?_, ?_, ?_⟩
  · intro k hk
    simp [planRanges, List.getElem?_range hk]
  · have key : ∀ t r : Nat, t + r = rc + P - 1 → r < P → rc ≤ t := by
      intro t r h1 h2; omega
    exact key (P * ((rc + P - 1) / P)) ((rc + P - 1) % P)
      (Nat.div_add_mod _ _) (Nat.mod_lt _ hP0)
  · intro m hm
    have key2 : ∀ t : Nat, rc ≤ t → rc + P - 1 < t + P := by intro t ht; omega
    have h4 : (rc + P - 1) / P < m + 1 := by
      rw [Nat.div_lt_iff_lt_mul hP0]
      calc rc + P - 1 < P * m + P := key2 (P * m) hm
        _ = (m + 1) * P := by ring
    exact Nat.lt_succ_iff.mp h4
  · have hmap : (planRanges rc P).map Prod.snd = List.replicate P (planLimit rc P) := by
      simp [planRanges, List.map_map, Function.comp_def, List.map_const']
    rw [hmap, List.sum_replicate, smul_eq_mul]
  · intro k hk1
    have hk : k < P := by omega
    simp [planRanges, List.getElem?_range hk, List.getElem?_range hk1, Nat.succ_mul]
  · intro hrc
    have hL : 0 < planLimit rc P := by
      rw [planLimit, Nat.lt_iff_add_one_le, Nat.one_le_div_iff hP0]
      omega
    have hmap : (planRanges rc P).map Prod.fst =
        (List.range P).map fun part => part * planLimit rc P := by
      simp [planRanges, List.map_map, Function.comp_def]
    rw [hmap, List.pairwise_map]
    exact (List.pairwise_lt_range P).imp fun hab => mul_lt_mul_of_pos_right hab hL

/-- C1 witness: at `P = 3`, `rowCount = 2` the limits cover the row
count and the offsets are strictly increasing. -/
theorem C1_planner_witness :
    1 ≤ 3 ∧ (2 : Nat) ≤ 3 * planLimit 2 3 ∧
      List.Pairwise (fun a b : Nat => a < b) ((planRanges 2 3).map Prod.fst) :=
  ⟨by decide, (C1_planner 2 3 (by decide)).2.2.1,
    (C1_planner 2 3 (by decide)).2.2.2.2.2.2 (by decide)⟩

/-- C1 counterexample: at `rowCount = 0`, `P = 2` the planner produces
the ranges `[(0,0),(0,0)]`, whose offsets are not strictly increasing. -/
theorem C1_counterexample :
    planRanges 0 2 = [(0, 0), (0, 0)] ∧
    ¬ List.Pairwise (fun a b : Nat => a < b) ((planRanges 0 2).map Prod.fst) := by
  decide

/-- C5: for `rowCount = 10`, `P = 3` the planner computes
`limit = ceil(10/3) = 4` and the ranges `(0,4), (4,4), (8,4)`, whose
limits sum to 12 while only 10 rows exist. -/
theorem C5_scenarioB :
    planLimit 10 3 = 4 ∧
    planRanges 10 3 = [(0, 4), (4, 4), (8, 4)] ∧
    ((planRanges 10 3).map Prod.snd).sum = 12 ∧ 10 < 12 := by
  decide

/-- C2: with explicit index column(s) the GlobalIndex is the labeled
concatenation, in plan (partition) order, of the materialized
per-partition index fragments; the labels are the requested column
name(s), possibly composite. -/
theorem C2_explicit_index {H I : Type} [Inhabited H] (env : Env H I) (sql s : String)
    (cols : List String) (rc : Nat) (cp : List String)
    (hc : env.execCount (rowCntQuery sql) s = Except.ok rc)
    (hsc : env.execSchema (schemaQuery sql) s = Except.ok cp)
    (hlen : ∀ k, k < env.nPartitions → 2 ≤ (env.deploy k).length) :
    ∃ parts tr,
      sqlRead env sql (Conn.str s) (some cols) =
        (ReadResult.frame parts
          (GlobalIndex.labeled
            (((List.range env.nPartitions).map fun k =>
                env.fragOf (penult (env.deploy k))).flatten)
            cols)
          cp, tr) := by
  have hidx : reconcileIndex (some cols) env.lenOf env.fragOf
      ((List.range env.nPartitions).map fun k => penult (env.deploy k)) =
      GlobalIndex.labeled
        (((List.range env.nPartitions).map fun k =>
            env.fragOf (penult (env.deploy k))).flatten) cols := by
    simp [reconcileIndex, List.map_map, Function.comp_def]
  exact ⟨_, _, by
    show readCore env sql s (some cols) = _
    rw [readCore_ok env sql s (some cols) rc cp hc hsc hlen, hidx]⟩

/-- C2 witness: Scenario C — three partitions with id-fragments
`[1,2,3]`, `[4,5]`, `[6,7,8]` yield the GlobalIndex
`[1,2,3,4,5,6,7,8]` labeled `"id"`. -/
theorem C2_witness :
    ∃ parts tr,
      sqlRead envC2 "q" (Conn.str "c") (some ["id"]) =
        (ReadResult.frame parts
          (GlobalIndex.labeled ([1, 2, 3, 4, 5, 6, 7, 8] : List Int) ["id"])
          ["id", "v"], tr) :=
  C2_explicit_index envC2 "q" "c" ["id"] 8 ["id", "v"] rfl rfl
    (fun k _ => by norm_num [envC2])

/-- C3: with no index column requested, all partition lengths are
materialized and summed, and the GlobalIndex is the contiguous
zero-based range of that total length `N`: its values are exactly
`0..N-1`, with no duplicates and no gaps. -/
theorem C3_range_index {H I : Type} [Inhabited H] (env : Env H I) (sql s : String)
    (rc : Nat) (cp : List String) (N : Nat)
    (hc : env.execCount (rowCntQuery sql) s = Except.ok rc)
    (hsc : env.execSchema (schemaQuery sql) s = Except.ok cp)
    (hlen : ∀ k, k < env.nPartitions → 2 ≤ (env.deploy k).length)
    (hN : N = ((List.range env.nPartitions).map fun k =>
        env.lenOf (penult (env.deploy k))).sum) :
    (∃ parts tr,
      sqlRead env sql (Conn.str s) none =
        (ReadResult.frame parts (GlobalIndex.range N) cp, tr)) ∧
    (rangeIndexVals N).length = N ∧
    (rangeIndexVals N).Nodup ∧
    ∀ j, j < N → (rangeIndexVals N)[j]? = some j := by
  refine ⟨?_, by simp [rangeIndexVals], List.nodup_range N,
    fun j hj => by simp [rangeIndexVals, List.getElem?_range hj]⟩
  subst hN
  have hidx : reconcileIndex (H := H) (I := I) none env.lenOf env.fragOf
      ((List.range env.nPartitions).map fun k => penult (env.deploy k)) =
      GlobalIndex.range (((List.range env.nPartitions).map fun k =>
        env.lenOf (penult (env.deploy k))).sum) := by
    simp [reconcileIndex, List.map_map, Function.comp_def]
  exact ⟨_, _, by
    show readCore env sql s none = _
    rw [readCore_ok env sql s none rc cp hc hsc hlen, hidx]⟩

/-- C3 witness: two partitions of lengths 3 and 2 give the GlobalIndex
`RangeIndex(5)`, i.e. values `0..4`. -/
theorem C3_witness :
    (∃ parts tr,
      sqlRead envC3 "q" (Conn.str "c") none =
        (ReadResult.frame parts (GlobalIndex.range 5) ["a"], tr)) ∧
    (rangeIndexVals 5).length = 5 ∧
    (rangeIndexVals 5).Nodup ∧
    ∀ j, j < 5 → (rangeIndexVals 5)[j]? = some j :=
  C3_range_index envC3 "q" "c" 5 ["a"] 5 rfl rfl (fun k _ => by norm_num [envC3])
    (by decide)

/-- C4: with one partition whose task returns the handle set
`[40, 41, 42]`, the dispatcher tracks the wrapped data blocks `[40]`
and the index handle `41` as the claim states, but its `dtype_ids`
entry is `partition_ids[-1]` — the wrapped data-block list — and not
the last element `42` of the partition's handle set, because line 114
of the source appends `partition_ids[-1]` where the dtype handle would
be `partition_id[-1]`. -/
theorem C4_dtype_tracking :
    (runParts envC4 "q" 3 [0] ⟨[], [], []⟩).1 =
      some ⟨[PyObj.partList [40]], [41], [PyObj.partList [40]]⟩ ∧
    envC4.deploy 0 = [40, 41, 42] ∧
    (PyObj.partList [40] : PyObj Nat) ≠ PyObj.handle 42 := by
  decide

/-- C6: a connection argument that is neither a string nor a recognized
driver connection routes to the single-unit fallback: the dispatcher
warns and returns `single_worker_read` with the original arguments, its
only effects are the warning and the fallback call — no probe query, no
planning, no deploy — and no error is raised. -/
theorem C6_fallback {H I : Type} [Inhabited H] (env : Env H I) (sql tn : String)
    (ic : Option (List String)) :
    sqlRead env sql (Conn.other tn) ic =
      (ReadResult.fallback sql (Conn.other tn) ic,
        [Effect.warned (warnMsg tn), Effect.singleWorker]) := rfl

/-- C7: if the row-count probe fails its error propagates unmodified
and the only effect is that probe; if the row-count probe succeeds and
the zero-row schema probe fails, that error propagates unmodified and
the only effects are the two probes.  In both cases no task is deployed
and no frame is returned. -/
theorem C7_probe_error {H I : Type} [Inhabited H] (env : Env H I) (sql s e : String)
    (ic : Option (List String)) :
    (env.execCount (rowCntQuery sql) s = Except.error e →
      sqlRead env sql (Conn.str s) ic =
        (ReadResult.err e, [Effect.sqlProbe (rowCntQuery sql)])) ∧
    (∀ rc : Nat, env.execCount (rowCntQuery sql) s = Except.ok rc →
      env.execSchema (schemaQuery sql) s = Except.error e →
      sqlRead env sql (Conn.str s) ic =
        (ReadResult.err e,
          [Effect.sqlProbe (rowCntQuery sql), Effect.sqlProbe (schemaQuery sql)])) := by
  constructor
  · intro h
    show readCore env sql s ic = _
    simp [readCore, h]
  · intro rc h1 h2
    show readCore env sql s ic = _
    simp [readCore, h1, h2]

/-- C7 witness: a failing row-count probe aborts with its own error
after issuing only that probe. -/
theorem C7_witness :
    sqlRead envC7 "q" (Conn.str "c") none =
      (ReadResult.err "boom", [Effect.sqlProbe (rowCntQuery "q")]) :=
  (C7_probe_error envC7 "q" "c" "boom" none).1 rfl

/-- C8: a recognized `psycopg2` connection is normalized to the
connection string built from its user, password, host, port and
database name; when the host is the Unix-socket sentinel `"/tmp"` both
the host and the port component are omitted. -/
theorem C8_pg_connection (info : PgInfo) :
    normalizeCon true (Conn.pg info) = Conn.str (pgConnString info) ∧
    (info.host = "/tmp" →
      pgConnString info =
        "postgresql+psycopg2://" ++ info.user ++ ":" ++ info.password ++ "@/" ++
          info.dbname) ∧
    (info.host ≠ "/tmp" →
      pgConnString info =
        "postgresql+psycopg2://" ++ info.user ++ ":" ++ info.password ++ "@" ++
          info.host ++ ":" ++ toString info.port ++ "/" ++ info.dbname) := by
  refine ⟨rfl, ?_, ?_⟩
  · intro h
    have key : ∀ A db : String, A ++ "@" ++ "" ++ "" ++ "/" ++ db = A ++ "@/" ++ db := by
      intro A db
      rw [String.append_empty, String.append_empty, String.append_assoc A "@" "/"]
      rfl
    have h0 : pgConnString info =
        "postgresql+psycopg2://" ++ info.user ++ ":" ++ info.password ++ "@" ++ "" ++
          "" ++ "/" ++ info.dbname := by
      simp [pgConnString, h]
    rw [h0]
    exact key _ _
  · intro h
    have h0 : pgConnString info =
        "postgresql+psycopg2://" ++ info.user ++ ":" ++ info.password ++ "@" ++
          info.host ++ (":" ++ toString info.port) ++ "/" ++ info.dbname := by
      simp [pgConnString, h]
    rw [h0, ← String.append_assoc]

/-- C8 witness: with host `"/tmp"` the derived string omits host and
port; with host `"localhost"` both appear. -/
theorem C8_witness :
    infoA.host = "/tmp" ∧
    pgConnString infoA =
      "postgresql+psycopg2://" ++ "u" ++ ":" ++ "p" ++ "@/" ++ "db" ∧
    pgConnString infoB =
      "postgresql+psycopg2://" ++ "u" ++ ":" ++ "p" ++ "@" ++ "localhost" ++ ":" ++
        toString 5432 ++ "/" ++ "db" :=
  ⟨rfl, (C8_pg_connection infoA).2.1 rfl, (C8_pg_connection infoB).2.2 (by decide)⟩

/-- C9: every `deployed` effect of any invocation carries an expected
result count of exactly `nPartitions + 2` handles and
`num_splits = nPartitions`. -/
theorem C9_deploy_params {H I : Type} [Inhabited H] (env : Env H I) (sql : String)
    (con : Conn) (ic : Option (List String)) (c n : Nat) (q : String)
    (hmem : Effect.deployed c n q ∈ (sqlRead env sql con ic).2) :
    c = env.nPartitions + 2 ∧ n = env.nPartitions := by
  have key : ∀ q' : String,
      (Effect.deployed c n q : Effect H) =
        Effect.deployed (env.nPartitions + 2) env.nPartitions q' →
      c = env.nPartitions + 2 ∧ n = env.nPartitions := by
    intro q' h
    injection h with h1 h2 h3
    exact ⟨h1, h2⟩
  cases hcon : normalizeCon env.pgAvailable con with
  | str s =>
    simp only [sqlRead, hcon, readCore] at hmem
    cases h1 : env.execCount (rowCntQuery sql) s with
    | error e => simp only [h1] at hmem; simp at hmem
    | ok rc =>
      simp only [h1] at hmem
      cases h2 : env.execSchema (schemaQuery sql) s with
      | error e => simp only [h2] at hmem; simp at hmem
      | ok cp =>
        simp only [h2] at hmem
        cases h3 : (runParts env sql (planLimit rc env.nPartitions)
            (List.range env.nPartitions) (⟨[], [], []⟩ : Tracked H)).1 with
        | none =>
          simp only [h3, List.mem_cons] at hmem
          rcases hmem with hmem | hmem | hmem
          · exact absurd hmem (by simp)
          · exact absurd hmem (by simp)
          · obtain ⟨q', hq⟩ := runParts_deployed env sql _ _ _ _ hmem
            exact key q' hq
        | some st =>
          simp only [h3, List.mem_cons, List.mem_append, List.mem_singleton] at hmem
          rcases hmem with hmem | hmem | hmem | hmem
          · exact absurd hmem (by simp)
          · exact absurd hmem (by simp)
          · obtain ⟨q', hq⟩ := runParts_deployed env sql _ _ _ _ hmem
            exact key q' hq
          · exact absurd hmem (by simp)
  | pg info => simp only [sqlRead, hcon] at hmem; simp at hmem
  | other tn => simp only [sqlRead, hcon] at hmem; simp at hmem

/-- C9 witness: with one configured partition, the recorded deploy call
expects `1 + 2 = 3` result handles and uses `num_splits = 1`. -/
theorem C9_witness : (3 : Nat) = envC9.nPartitions + 2 ∧ (1 : Nat) = envC9.nPartitions :=
  C9_deploy_params envC9 "q" (Conn.str "c") none 3 1 (partQuery "q" 5 0) (by decide)

/-- C10: the column schema of the returned frame is exactly the
zero-row schema probe's columns, and replacing the last element (the
dtype handle) of every partition's handle set — keeping length and all
earlier elements — leaves the entire result and effect trace unchanged:
the dtype handles are never materialized, never passed to the frame
constructor, and have no effect on the returned object. -/
theorem C10_dtype_unused {H I : Type} [Inhabited H] (env : Env H I) (d : Nat → List H)
    (sql s : String) (ic : Option (List String)) (rc : Nat) (cp : List String)
    (hc : env.execCount (rowCntQuery sql) s = Except.ok rc)
    (hsc : env.execSchema (schemaQuery sql) s = Except.ok cp)
    (hlen : ∀ k, k < env.nPartitions → 2 ≤ (env.deploy k).length)
    (hd : ∀ k, (d k).length = (env.deploy k).length ∧
      (d k).take ((env.deploy k).length - 1) =
        (env.deploy k).take ((env.deploy k).length - 1)) :
    (∃ parts idx tr,
      sqlRead env sql (Conn.str s) ic = (ReadResult.frame parts idx cp, tr)) ∧
    sqlRead (withDeploy env d) sql (Conn.str s) ic = sqlRead env sql (Conn.str s) ic := by
  constructor
  · exact ⟨_, _, _, by
      show readCore env sql s ic = _
      rw [readCore_ok env sql s ic rc cp hc hsc hlen]⟩
  · show readCore (withDeploy env d) sql s ic = readCore env sql s ic
    exact readCore_congr env d sql s ic hd

/-- C10 witness: changing the dtype handle of the single partition from
`3` to `99` leaves the result and trace unchanged, and the frame's
columns are the probed `["a"]`. -/
theorem C10_witness :
    (∃ parts idx tr,
      sqlRead envC10 "q" (Conn.str "c") none = (ReadResult.frame parts idx ["a"], tr)) ∧
    sqlRead (withDeploy envC10 dC10) "q" (Conn.str "c") none =
      sqlRead envC10 "q" (Conn.str "c") none :=
  C10_dtype_unused envC10 dC10 "q" "c" none 4 ["a"] rfl rfl
    (fun k _ => by norm_num [envC10]) (fun k => ⟨rfl, rfl⟩)
